import Mathlib

/-!
Shallow embedding of the firefly-ethconnect event subscription engine
(`events` package: subscription filter lifecycle, log polling, timestamp
enrichment), the FFCAPI connector front end (`ffcapiconnector` package:
header validation and dispatch), and the legacy LevelDB key iterator
(`kldevents` package).

RPC interactions are modelled by passing the outcome of each remote call
as an explicit parameter (the environment's response), and by recording
the calls the code issues as an output list, so that properties such as
"issues at most one uninstall call" are statable.
-/

namespace EthEvents

/-- Addresses and hashes are opaque to the engine: modelled as naturals. -/
abbrev Address := Nat

/-- Topic hashes, opaque to the engine. -/
abbrev Hash := Nat

/-- `persistedFilter`: the part of the filter recorded to storage. -/
structure PersistedFilter where
  addresses : List Address
  topics : List (List Hash)
deriving Repr, DecidableEq

/-- `ethFilter`: the structure sent over the wire on eth_newFilter.
Go's `HexBigInt` from-block is modelled as `Int`. -/
structure EthFilter where
  filter : PersistedFilter
  fromBlock : Int
  toBlock : String
deriving Repr, DecidableEq

/-- `ABIElementMarshaling` converted to an ABI event: only the fields the
engine reads (name, topic id, signature string) are modelled; signature
computation itself is external (`ethbind.API.ABIEventSignature`). -/
structure ABIEvent where
  name : String
  id : Hash
  sig : String
deriving Repr, DecidableEq

/-- `SubscriptionInfo`: the persisted data for the subscription. -/
structure SubscriptionInfo where
  id : String
  path : String
  summary : String
  name : String
  stream : String
  filter : PersistedFilter
  event : Option ABIEvent
  fromBlock : String
deriving Repr, DecidableEq

/-- Modelled from the spec: the event stream's static configuration read by
the engine (`stream.spec.Timestamps`); the eventstream type is not in src. -/
structure StreamSpec where
  timestamps : Bool
deriving Repr, DecidableEq

/-- Timestamp cache: block-number string to block timestamp. The LRU store
is an external library; only `Get`/`Add` semantics used by the engine are
modelled (an association list where `Add` prepends). -/
abbrev TimestampCache := List (String × Nat)

/-- Cache `Get`: lookup by block-number key. -/
def cacheGet (c : TimestampCache) (key : String) : Option Nat :=
  match c with
  | [] => none
  | (k, v) :: rest => if k = key then some v else cacheGet rest key

/-- Cache `Add`: record a (block number, timestamp) entry. -/
def cacheAdd (c : TimestampCache) (key : String) (val : Nat) : TimestampCache :=
  (key, val) :: c

/-- Modelled from the spec: the event stream runtime holding the per-stream
spec and the shared block timestamp cache; the eventstream type is not in
src. -/
structure EventStream where
  spec : StreamSpec
  blockTimestampCache : TimestampCache
deriving Repr, DecidableEq

/-- Modelled from the spec: the Log Processor tracks the block
high-water-mark for one subscription and holds the stream reference; the
logProcessor type is not in src. -/
structure LogProcessor where
  subID : String
  blockHWM : Int
  stream : EventStream
deriving Repr, DecidableEq

/-- Modelled from the spec: `newLogProcessor` pairs the subscription id,
event and stream; the HWM starts at zero until initialised. -/
def newLogProcessor (subID : String) (stream : EventStream) : LogProcessor :=
  { subID := subID, blockHWM := 0, stream := stream }

/-- Modelled from the spec: `initBlockHWM` seeds the Log Processor HWM. -/
def LogProcessor.initBlockHWM (lp : LogProcessor) (i : Int) : LogProcessor :=
  { lp with blockHWM := i }

/-- Modelled from the spec: `getBlockHWM` reads the Log Processor HWM. -/
def LogProcessor.getBlockHWM (lp : LogProcessor) : Int :=
  lp.blockHWM

/-- `subscription`: the runtime that manages the subscription. -/
structure Subscription where
  info : SubscriptionInfo
  lp : LogProcessor
  logName : String
  filterID : Int
  filteredOnce : Bool
  filterStale : Bool
  deleting : Bool
  resetRequested : Bool
deriving Repr, DecidableEq

/-- The remote calls the engine can issue, recorded for the theorems. -/
inductive RpcCall where
  | newFilter (f : EthFilter)
  | uninstallFilter (filterID : Int)
  | getFilterLogs (filterID : Int)
  | getFilterChanges (filterID : Int)
  | blockNumber
  | getBlockByNumber (blockNumber : String)
deriving Repr, DecidableEq

/-- Engine error values (`errors.Errorf` codes with their arguments). -/
inductive Err where
  | eventStreamsSubscribeBadBlock
  | eventStreamsSubscribeNoEvent
  | eventStreamsNoID
  | rpcCallReturnedError (method : String) (msg : String)
  | streamError (msg : String)
  | abiEventError (msg : String)
deriving Repr, DecidableEq

/-- `blockHWM`: returns the Log Processor's high-water-mark. -/
def Subscription.blockHWM (s : Subscription) : Int :=
  s.lp.getBlockHWM

/-- `markFilterStale`: sets the stale flag; on a not-stale-to-stale
transition it best-effort issues eth_uninstallFilter, whose outcome
`uninstallResult` is only logged. Returns the new state and the RPC calls
issued. -/
def markFilterStale (s : Subscription) (newFilterStale : Bool)
    (uninstallResult : Except String Bool) : Subscription × List RpcCall :=
  let calls :=
    if newFilterStale && !s.filterStale then
      match uninstallResult with
      | .ok _ => [RpcCall.uninstallFilter s.filterID]
      | .error _ => [RpcCall.uninstallFilter s.filterID]
    else []
  ({ s with filterStale := newFilterStale }, calls)

/-- Output of `restartFilter`: the result, the filter that was sent on the
wire, and the RPC calls issued. -/
structure RestartOut where
  result : Except Err Subscription
  sentFilter : EthFilter
  calls : List RpcCall
deriving Repr

/-- `restartFilter`: builds an `ethFilter` from the persisted spec with
from-block `since` and to-block "latest", issues eth_newFilter (outcome
`newFilterResult`); on success stores the filter id, resets `filteredOnce`
and clears `filterStale` via `markFilterStale false`. -/
def restartFilter (s : Subscription) (since : Int)
    (newFilterResult : Except String Int) : RestartOut :=
  let f : EthFilter := { filter := s.info.filter, fromBlock := since, toBlock := "latest" }
  match newFilterResult with
  | .error e =>
      { result := .error (.rpcCallReturnedError "eth_newFilter" e),
        sentFilter := f, calls := [RpcCall.newFilter f] }
  | .ok fid =>
      let s1 := { s with filterID := fid, filteredOnce := false }
      let (s2, calls2) := markFilterStale s1 false (.ok true)
      { result := .ok s2, sentFilter := f, calls := RpcCall.newFilter f :: calls2 }

/-- A log entry as polled from the node: the block number, the enriched
timestamp, and an opaque payload (the fields the engine forwards without
inspecting). -/
structure LogEntry where
  blockNumber : Int
  timestamp : Nat
  payload : Nat
deriving Repr, DecidableEq

/-- A block header: only the `Time` field is read by the engine. -/
structure Header where
  time : Nat
deriving Repr, DecidableEq

/-- `strings.Contains`: whether `needle` occurs as a contiguous substring
of `hay` (recursion over the haystack's characters). -/
def listHasInfix (needle : List Char) : List Char → Bool
  | [] => needle.isEmpty
  | c :: cs => needle.isPrefixOf (c :: cs) || listHasInfix needle cs

/-- `strings.Contains` on strings. -/
def stringContains (hay needle : String) : Bool :=
  listHasInfix needle.data hay.data

/-- `getEventTimestamp`: on a cache hit the cached timestamp is used with
no RPC; on a miss, eth_getBlockByNumber is issued (outcome `rpcResult`):
on success the entry gets the header time and the cache is populated, on
failure the timestamp is set to zero and the cache is untouched. Returns
the enriched entry, the new cache, and the RPC calls issued. -/
def getEventTimestamp (cache : TimestampCache) (l : LogEntry)
    (rpcResult : Except String Header) : LogEntry × TimestampCache × List RpcCall :=
  let blockNumber := toString l.blockNumber
  match cacheGet cache blockNumber with
  | some ts => ({ l with timestamp := ts }, cache, [])
  | none =>
      match rpcResult with
      | .error _ =>
          ({ l with timestamp := 0 }, cache, [RpcCall.getBlockByNumber blockNumber])
      | .ok hdr =>
          ({ l with timestamp := hdr.time },
            cacheAdd cache blockNumber hdr.time,
            [RpcCall.getBlockByNumber blockNumber])

/-- Environment responses consumed by one `processNewEvents` cycle. -/
structure ProcEnv where
  pollResult : Except String (List LogEntry)
  uninstallResult : Except String Bool
  headerResult : Nat → Except String Header
  procResult : Nat → LogEntry → Except String Unit

/-- Output of `processNewEvents`: the new subscription state, the error
returned to the caller (the raw RPC error message, if any), the RPC calls
issued, and the (index, entry) pairs handed to `processLogEntry` in
order. -/
structure ProcOut where
  sub : Subscription
  err : Option String
  calls : List RpcCall
  attempted : List (Nat × LogEntry)
  logged : List Nat

/-- Accumulator of the `processNewEvents` loop: the running timestamp
cache, the RPC calls issued so far, the (index, entry) pairs handed to
`processLogEntry` in order, and the indices whose processing failure was
logged. -/
structure LoopAcc where
  cache : TimestampCache
  calls : List RpcCall
  attempted : List (Nat × LogEntry)
  logged : List Nat
deriving Repr

/-- The `if s.lp.stream.spec.Timestamps` guard of the loop body: enrich
the entry via `getEventTimestamp` when timestamps are requested,
otherwise leave entry and cache untouched with no RPC. -/
def enrichEntry (timestamps : Bool) (cache : TimestampCache) (l : LogEntry)
    (r : Except String Header) : LogEntry × TimestampCache × List RpcCall :=
  if timestamps then getEventTimestamp cache l r else (l, cache, [])

/-- The `for idx, logEntry := range logs` loop of `processNewEvents`:
optionally enriches the entry via `getEventTimestamp`, then hands it to
`processLogEntry`; a processing failure is only logged (recorded in
`logged`) and the loop continues with the next entry either way. -/
def processLogsLoop (timestamps : Bool) (headerResult : Nat → Except String Header)
    (procResult : Nat → LogEntry → Except String Unit) (idx : Nat) :
    List LogEntry → LoopAcc → LoopAcc
  | [], acc => acc
  | l :: rest, acc =>
      let en := enrichEntry timestamps acc.cache l (headerResult idx)
      match procResult idx en.1 with
      | .error _ =>
          processLogsLoop timestamps headerResult procResult (idx + 1) rest
            { cache := en.2.1, calls := acc.calls ++ en.2.2,
              attempted := acc.attempted ++ [(idx, en.1)], logged := acc.logged ++ [idx] }
      | .ok _ =>
          processLogsLoop timestamps headerResult procResult (idx + 1) rest
            { cache := en.2.1, calls := acc.calls ++ en.2.2,
              attempted := acc.attempted ++ [(idx, en.1)], logged := acc.logged }

/-- `processNewEvents`: polls via eth_getFilterLogs when `filteredOnce` is
false and eth_getFilterChanges when true. On a poll error containing
"filter not found" the filter is marked stale (forced uninstall attempt);
every poll error is returned to the caller. On success each entry is
enriched and processed in node order and `filteredOnce` is set. -/
def processNewEvents (s : Subscription) (env : ProcEnv) : ProcOut :=
  let pollCall :=
    if s.filteredOnce then RpcCall.getFilterChanges s.filterID
    else RpcCall.getFilterLogs s.filterID
  match env.pollResult with
  | .error e =>
      if stringContains e "filter not found" then
        let (s1, calls1) := markFilterStale s true env.uninstallResult
        { sub := s1, err := some e, calls := pollCall :: calls1, attempted := [], logged := [] }
      else
        { sub := s, err := some e, calls := [pollCall], attempted := [], logged := [] }
  | .ok logs =>
      let acc :=
        processLogsLoop s.lp.stream.spec.timestamps env.headerResult env.procResult 0
          logs { cache := s.lp.stream.blockTimestampCache, calls := [],
                 attempted := [], logged := [] }
      let s1 :=
        { s with
            lp := { s.lp with stream := { s.lp.stream with blockTimestampCache := acc.cache } },
            filteredOnce := true }
      { sub := s1, err := none, calls := pollCall :: acc.calls,
        attempted := acc.attempted, logged := acc.logged }

/-- `FromBlockLatest` sentinel. -/
def FromBlockLatest : String := "latest"

/-- `(&big.Int{}).SetString(s, 10)`: an optional sign followed by at least
one decimal digit; anything else fails. -/
def decDigits : List Char → Option Nat
  | [] => none
  | [c] => if c.isDigit then some (c.toNat - 48) else none
  | c :: cs =>
      if c.isDigit then
        match decDigits cs with
        | some n => some ((c.toNat - 48) * 10 ^ cs.length + n)
        | none => none
      else none

/-- `big.Int.SetString` in base 10 over the whole string. -/
def bigIntSetString10 (s : String) : Option Int :=
  match s.data with
  | '+' :: rest => (decDigits rest).map (fun n => (n : Int))
  | '-' :: rest => (decDigits rest).map (fun n => -(n : Int))
  | l => (decDigits l).map (fun n => (n : Int))

/-- `setInitialBlockHeight`: with a non-empty FromBlock other than
"latest", parses it as a decimal big integer (error on failure, without
touching the subscription); otherwise issues eth_blockNumber (outcome
`blockNumberResult`) and seeds the Log Processor HWM with the result.
Returns the initial block height and the (possibly updated)
subscription. -/
def setInitialBlockHeight (s : Subscription) (blockNumberResult : Except String Int) :
    Except Err (Int × Subscription) :=
  if s.info.fromBlock ≠ "" ∧ s.info.fromBlock ≠ FromBlockLatest then
    match bigIntSetString10 s.info.fromBlock with
    | none => .error .eventStreamsSubscribeBadBlock
    | some i => .ok (i, s)
  else
    match blockNumberResult with
    | .error e => .error (.rpcCallReturnedError "eth_blockNumber" e)
    | .ok i => .ok (i, { s with lp := s.lp.initBlockHWM i })

/-- `setCheckpointBlockHeight`: seeds the Log Processor HWM from the
persisted checkpoint. -/
def setCheckpointBlockHeight (s : Subscription) (i : Int) : Subscription :=
  { s with lp := s.lp.initBlockHWM i }

/-- Modelled from the spec: the subscription manager (not in src) seeds
the HWM on fresh subscribe from the value `setInitialBlockHeight`
returns. -/
def subscribeInitialHWM (s : Subscription) (blockNumberResult : Except String Int) :
    Except Err Subscription :=
  match setInitialBlockHeight s blockNumberResult with
  | .error e => .error e
  | .ok (i, s1) => .ok { s1 with lp := s1.lp.initBlockHWM i }

/-- `ethbind.API.ABIEventSignature` (external): modelled as reading the
event's precomputed signature string, empty for a nil event. -/
def abiEventSignature : Option ABIEvent → String
  | none => ""
  | some e => e.sig

/-- `newSubscription`: resolves the stream (`streamResult`) and the ABI
event (`eventResult`, external conversion), builds the runtime with
`filterStale = true`, installs the address filter and summary/name
defaults on the info, rejects a nil or unnamed event, and pins the topic
filter to the event's topic hash. -/
def newSubscription (streamResult : Except Err EventStream)
    (eventResult : Except Err (Option ABIEvent))
    (addr : Option Address) (i : SubscriptionInfo) : Except Err Subscription :=
  match streamResult with
  | .error e => .error e
  | .ok stream =>
      match eventResult with
      | .error e => .error e
      | .ok event =>
          let s : Subscription :=
            { info := i, lp := newLogProcessor i.id stream,
              logName := i.id ++ ":" ++ abiEventSignature event,
              filterID := 0, filteredOnce := false, filterStale := true,
              deleting := false, resetRequested := false }
          let f := i.filter
          let f := match addr with
            | some a => { f with addresses := [a] }
            | none => f
          let addrStr := match addr with
            | some a => toString a
            | none => "*"
          let summary := addrStr ++ ":" ++ abiEventSignature event
          let name := if i.name = "" then summary else i.name
          match event with
          | none => .error .eventStreamsSubscribeNoEvent
          | some ev =>
              if ev.name = "" then .error .eventStreamsSubscribeNoEvent
              else
                let f := { f with topics := [[ev.id]] }
                .ok { s with info := { i with filter := f, summary := summary, name := name } }

/-- `restoreSubscription`: requires a non-empty id, resolves the stream
and the ABI event, and builds the runtime with `filterStale = true`. -/
def restoreSubscription (streamResult : Except Err EventStream)
    (eventResult : Except Err (Option ABIEvent))
    (i : SubscriptionInfo) : Except Err Subscription :=
  if i.id = "" then .error .eventStreamsNoID
  else
    match streamResult with
    | .error e => .error e
    | .ok stream =>
        match eventResult with
        | .error e => .error e
        | .ok event =>
            .ok { info := i, lp := newLogProcessor i.id stream,
                  logName := i.id ++ ":" ++ abiEventSignature event,
                  filterID := 0, filteredOnce := false, filterStale := true,
                  deleting := false, resetRequested := false }

end EthEvents

namespace FFCAPIConnector

/-- A parsed semantic version (the semver library is external; parsing and
constraint checking are supplied as functions). -/
structure SemVersion where
  major : Nat
  minor : Nat
  patch : Nat
  pre : String
deriving Repr, DecidableEq

/-- `ffcapi.Header` of a request. -/
structure ReqHeader where
  version : String
  requestID : Option String
  requestType : String
deriving Repr, DecidableEq

/-- The connector's error values from `validateHeader`. -/
inductive FFCErr where
  | badVersion (v : String) (msg : String)
  | unsupportedVersion (v : String)
  | missingRequestID
  | unsupportedRequestType (t : String)
deriving Repr, DecidableEq

/-- `err.Error()` rendering of the connector errors. -/
def FFCErr.message : FFCErr → String
  | .badVersion v msg => "FFC bad version " ++ v ++ ": " ++ msg
  | .unsupportedVersion v => "FFC unsupported version " ++ v
  | .missingRequestID => "FFC missing request id"
  | .unsupportedRequestType t => "FFC unsupported request type " ++ t

/-- `ffcapi.ErrorReason`. -/
inductive Reason where
  | notFound
  | invalidInputs
  | otherReason (r : String)
deriving Repr, DecidableEq

/-- A request handler: payload to (response body, reason, error). -/
abbrev FfcHandler := String → String × Reason × Option String

/-- The `ffcServer` runtime: the semver parse / constraint-check functions
stand for the external Masterminds library, and `handlerMap` is the
registered request-type table. -/
structure FfcServer where
  parseVersion : String → Except String SemVersion
  versionCheck : SemVersion → Bool
  handlerMap : String → Option FfcHandler

/-- `supportedAPIVersions`. -/
def supportedAPIVersions : String := "1.0.x"

/-- `NewFFCServer`: wires the handler table and builds the version
constraint from `supportedAPIVersions` using the external constraint
builder `newConstraint`. -/
def NewFFCServer (parse : String → Except String SemVersion)
    (newConstraint : String → SemVersion → Bool)
    (handlers : String → Option FfcHandler) : FfcServer :=
  { parseVersion := parse,
    versionCheck := newConstraint supportedAPIVersions,
    handlerMap := handlers }

/-- `validateHeader`: parses the header version, checks it against the
supported constraint, requires a non-nil request id, and looks up the
request type's handler. -/
def validateHeader (s : FfcServer) (h : ReqHeader) : Except FFCErr FfcHandler :=
  match s.parseVersion h.version with
  | .error e => .error (.badVersion h.version e)
  | .ok v =>
      if !s.versionCheck v then .error (.unsupportedVersion h.version)
      else
        match h.requestID with
        | none => .error .missingRequestID
        | some _ =>
            match s.handlerMap h.requestType with
            | none => .error (.unsupportedRequestType h.requestType)
            | some handler => .ok handler

/-- `mapReasonStatus`. -/
def mapReasonStatus : Reason → Nat
  | .notFound => 404
  | .invalidInputs => 400
  | .otherReason _ => 500

/-- The JSON body written by `ServeFFCAPI`: either an
`ffcapi.ErrorResponse` or a handler result. -/
inductive ResBody where
  | errorResponse (error : String) (reason : Reason)
  | result (body : String)
deriving Repr, DecidableEq

/-- The HTTP response written by `ServeFFCAPI`. -/
structure HttpResponse where
  body : ResBody
  status : Nat
deriving Repr, DecidableEq

/-- `ServeFFCAPI`: validates the header; on success invokes the handler
(second component true iff a handler was invoked); any error - validation
or handler - is rendered as an `ErrorResponse` body with the mapped
status. Status starts at 200 and reason at invalid-inputs, exactly as in
the source. -/
def ServeFFCAPI (s : FfcServer) (h : ReqHeader) (payload : String) :
    HttpResponse × Bool :=
  match validateHeader s h with
  | .error e =>
      ({ body := .errorResponse e.message .invalidInputs,
         status := mapReasonStatus .invalidInputs }, false)
  | .ok handler =>
      let (resBody, reason, herr) := handler payload
      match herr with
      | some e => ({ body := .errorResponse e reason, status := mapReasonStatus reason }, true)
      | none => ({ body := .result resBody, status := 200 }, true)

end FFCAPIConnector

namespace KLDEvents

/-- The goleveldb iterator (external): a cursor over an ordered list of
key-value entries. `pos = 0` is before the first entry; `pos = i + 1`
rests on entry `i`. `released` is set only by the underlying library's
own release. -/
structure LdbIterator where
  entries : List (String × List Nat)
  pos : Nat
  released : Bool
deriving Repr, DecidableEq

/-- The underlying iterator's `Next`: advances the cursor, reporting
whether it now rests on an entry. -/
def ldbIterNext (it : LdbIterator) : LdbIterator × Bool :=
  ({ it with pos := it.pos + 1 }, decide (it.pos + 1 ≤ it.entries.length))

/-- The underlying iterator's `Release`: frees the iterator. -/
def ldbIterRelease (it : LdbIterator) : LdbIterator :=
  { it with released := true }

/-- `levelDBKeyIterator.Next`: delegates to the underlying iterator's
`Next`. -/
def levelDBKeyIterator.Next (k : LdbIterator) : LdbIterator × Bool :=
  ldbIterNext k

/-- `levelDBKeyIterator.Release`: calls the underlying iterator's `Next`
and discards the result. -/
def levelDBKeyIterator.Release (k : LdbIterator) : LdbIterator :=
  (ldbIterNext k).1

end KLDEvents

open EthEvents FFCAPIConnector KLDEvents

/-- A concrete event stream used by the concrete-input witnesses. -/
def sampleStream : EventStream :=
  { spec := { timestamps := false }, blockTimestampCache := [] }

/-- A concrete ABI event used by the concrete-input witnesses. -/
def sampleEvent : ABIEvent := { name := "E", id := 1, sig := "E()" }

/-- A concrete subscription info used by the concrete-input witnesses. -/
def sampleInfo : SubscriptionInfo :=
  { id := "sub1", path := "", summary := "", name := "", stream := "str1",
    filter := { addresses := [], topics := [] }, event := some sampleEvent,
    fromBlock := "" }

/-- The subscription `newSubscription` builds from `sampleInfo`. -/
def sampleNewSub : Subscription :=
  { info := { sampleInfo with
        filter := { addresses := [], topics := [[1]] },
        summary := "*:E()",
        name := "*:E()" },
    lp := newLogProcessor "sub1" sampleStream, logName := "sub1:E()",
    filterID := 0, filteredOnce := false, filterStale := true,
    deleting := false, resetRequested := false }

/-- The subscription `restoreSubscription` rebuilds from `sampleInfo`. -/
def sampleRestoredSub : Subscription :=
  { info := sampleInfo, lp := newLogProcessor "sub1" sampleStream,
    logName := "sub1:E()", filterID := 0, filteredOnce := false,
    filterStale := true, deleting := false, resetRequested := false }

/-- Claim C1: for every subscription, the filter installed by
`restartFilter` with `since = blockHWM` (the Log Processor's current HWM)
has from-block equal to the HWM and to-block "latest"; the from-block is
never lower than the HWM, and it is independent of the subscribe-time
`FromBlock` directive of the subscription info. -/
theorem restartFilter_fromBlock_is_hwm (s : Subscription) (r : Except String Int)
    (fb : String) :
    (restartFilter s s.blockHWM r).sentFilter.fromBlock = s.blockHWM
    ∧ (restartFilter s s.blockHWM r).sentFilter.toBlock = "latest"
    ∧ s.blockHWM ≤ (restartFilter s s.blockHWM r).sentFilter.fromBlock
    ∧ (restartFilter { s with info := { s.info with fromBlock := fb } }
          (Subscription.blockHWM { s with info := { s.info with fromBlock := fb } }) r).sentFilter
        = (restartFilter s s.blockHWM r).sentFilter := by
  cases r <;>
    simp [restartFilter, Subscription.blockHWM, LogProcessor.getBlockHWM]

/-- Claim C3: `processNewEvents` polls with eth_getFilterChanges exactly
when `filteredOnce` is set and with eth_getFilterLogs otherwise; a poll
whose RPC succeeds leaves `filteredOnce = true`; a successful
`restartFilter` resets `filteredOnce` to false (and clears the stale
flag while storing the new filter id). -/
theorem processNewEvents_method_by_filteredOnce (s : Subscription) (env : ProcEnv)
    (logs : List LogEntry) (ur : Except String Bool)
    (hr : Nat → Except String Header) (pr : Nat → LogEntry → Except String Unit)
    (since : Int) (fid : Int) :
    (processNewEvents s env).calls.head? =
      some (if s.filteredOnce then RpcCall.getFilterChanges s.filterID
            else RpcCall.getFilterLogs s.filterID)
    ∧ (processNewEvents s ⟨.ok logs, ur, hr, pr⟩).sub.filteredOnce = true
    ∧ (restartFilter s since (.ok fid)).result =
        .ok { s with filterID := fid, filteredOnce := false, filterStale := false } := by
  refine ⟨?_, ?_, ?_⟩
  · cases henv : env.pollResult with
    | error e =>
        by_cases hc : stringContains e "filter not found" = true <;>
          simp [processNewEvents, henv, hc, markFilterStale]
    | ok logs => simp [processNewEvents, henv]
  · simp [processNewEvents]
  · simp [restartFilter, markFilterStale]

/-- Claim C4: `markFilterStale true` issues the uninstall RPC only on the
not-stale-to-stale transition, so two successive invocations issue at
most one uninstall call (the second none at all); the stale flag is set
in every case, and the outcome of the uninstall RPC (which is only
logged) never changes the result. -/
theorem markFilterStale_uninstall_at_most_once (s : Subscription)
    (r1 r2 : Except String Bool) :
    ((markFilterStale s true r1).2
        ++ (markFilterStale (markFilterStale s true r1).1 true r2).2).length ≤ 1
    ∧ (markFilterStale (markFilterStale s true r1).1 true r2).2 = []
    ∧ (markFilterStale s true r1).1.filterStale = true
    ∧ (markFilterStale (markFilterStale s true r1).1 true r2).1.filterStale = true
    ∧ markFilterStale s true r1 = markFilterStale s true r2 := by
  cases hst : s.filterStale <;> cases r1 <;> cases r2 <;>
    simp [markFilterStale, hst]

/-- Claim C9: the legacy iterator's `Release` advances the underlying
iterator by one position exactly as `Next` does (discarding the validity
result) and leaves the underlying iterator's released state untouched. -/
theorem levelDBKeyIterator_Release_advances (k : LdbIterator) :
    levelDBKeyIterator.Release k = (levelDBKeyIterator.Next k).1
    ∧ (levelDBKeyIterator.Release k).released = k.released
    ∧ (levelDBKeyIterator.Release k).pos = k.pos + 1 := by
  simp [levelDBKeyIterator.Release, levelDBKeyIterator.Next, ldbIterNext]

/-- Claim C2: when the poll RPC of `processNewEvents` fails with message
`e`, the error is always returned to the caller; the stale flag becomes
set exactly when the message contains "filter not found" (otherwise the
subscription is left untouched), and the forced uninstall attempt is
issued exactly on the not-stale-to-stale transition caused by that
message. -/
theorem processNewEvents_poll_error_classification (s : Subscription) (e : String)
    (ur : Except String Bool) (hr : Nat → Except String Header)
    (pr : Nat → LogEntry → Except String Unit) :
    (processNewEvents s ⟨.error e, ur, hr, pr⟩).err = some e
    ∧ (processNewEvents s ⟨.error e, ur, hr, pr⟩).sub.filterStale =
        (stringContains e "filter not found" || s.filterStale)
    ∧ (RpcCall.uninstallFilter s.filterID ∈ (processNewEvents s ⟨.error e, ur, hr, pr⟩).calls ↔
        stringContains e "filter not found" = true ∧ s.filterStale = false)
    ∧ (stringContains e "filter not found" = false →
        (processNewEvents s ⟨.error e, ur, hr, pr⟩).sub = s) := by
  by_cases hc : stringContains e "filter not found" = true <;>
    cases hst : s.filterStale <;> cases hfo : s.filteredOnce <;> cases ur <;>
      simp_all [processNewEvents, markFilterStale]

/-- Witness for C2 at a concrete input: an RPC failure whose message does
not mention "filter not found" leaves the subscription state unchanged. -/
theorem processNewEvents_poll_error_classification_witness :
    (processNewEvents
        { info := { id := "s1", path := "", summary := "", name := "", stream := "str1",
                    filter := { addresses := [], topics := [] }, event := none,
                    fromBlock := "" },
          lp := { subID := "s1", blockHWM := 0,
                  stream := { spec := { timestamps := false }, blockTimestampCache := [] } },
          logName := "s1", filterID := 7, filteredOnce := true, filterStale := false,
          deleting := false, resetRequested := false }
        ⟨.error "connection refused", .ok true, fun _ => .error "x", fun _ _ => .ok ()⟩).sub =
      { info := { id := "s1", path := "", summary := "", name := "", stream := "str1",
                  filter := { addresses := [], topics := [] }, event := none,
                  fromBlock := "" },
        lp := { subID := "s1", blockHWM := 0,
                stream := { spec := { timestamps := false }, blockTimestampCache := [] } },
        logName := "s1", filterID := 7, filteredOnce := true, filterStale := false,
        deleting := false, resetRequested := false } :=
  (processNewEvents_poll_error_classification _ "connection refused" _ _ _).2.2.2 (by decide)

/-- Timestamp enrichment only rewrites the entry's timestamp: payload and
block number are preserved. -/
theorem getEventTimestamp_preserves_entry (cache : TimestampCache) (l : LogEntry)
    (r : Except String Header) :
    (getEventTimestamp cache l r).1.payload = l.payload
    ∧ (getEventTimestamp cache l r).1.blockNumber = l.blockNumber := by
  unfold getEventTimestamp
  cases h : cacheGet cache (toString l.blockNumber) <;> cases r <;> simp [h]

/-- The polling loop attempts every entry: the attempted indices are the
consecutive indices from `idx`, and the attempted entries carry the
payloads of the input logs in node order, for every processing-outcome
oracle. -/
theorem processLogsLoop_attempts_all (t : Bool) (hr : Nat → Except String Header)
    (pr : Nat → LogEntry → Except String Unit) (logs : List LogEntry) :
    ∀ (idx : Nat) (acc : LoopAcc),
      ((processLogsLoop t hr pr idx logs acc).attempted.map Prod.fst
          = acc.attempted.map Prod.fst ++ List.range' idx logs.length)
      ∧ ((processLogsLoop t hr pr idx logs acc).attempted.map (fun p => p.2.payload)
          = acc.attempted.map (fun p => p.2.payload) ++ logs.map LogEntry.payload) := by
  induction logs with
  | nil => intro idx acc; simp [processLogsLoop]
  | cons l rest ih =>
      intro idx acc
      simp only [processLogsLoop]
      have hpay : (enrichEntry t acc.cache l (hr idx)).1.payload = l.payload := by
        cases ht : t with
        | true =>
            simpa [enrichEntry] using (getEventTimestamp_preserves_entry acc.cache l (hr idx)).1
        | false => simp [enrichEntry]
      cases hp : pr idx (enrichEntry t acc.cache l (hr idx)).1 <;>
        simp only [hp] <;>
        constructor <;>
        simp [ih (idx + 1), List.range', hpay]

/-- When every entry's processing fails, every index is logged — and the
loop still ran to completion. -/
theorem processLogsLoop_logs_failures (t : Bool) (hr : Nat → Except String Header)
    (msg : String) (logs : List LogEntry) :
    ∀ (idx : Nat) (acc : LoopAcc),
      (processLogsLoop t hr (fun _ _ => .error msg) idx logs acc).logged
        = acc.logged ++ List.range' idx logs.length := by
  induction logs with
  | nil => intro idx acc; simp [processLogsLoop]
  | cons l rest ih =>
      intro idx acc
      simp only [processLogsLoop]
      simp [ih (idx + 1), List.range']

/-- Claim C5: the initial block height is the parsed decimal starting
block when `FromBlock` is non-empty and not "latest" (and the HWM is
seeded with it), otherwise the eth_blockNumber result seeds the HWM; an
unparseable starting block yields an error, so no HWM is established. -/
theorem setInitialBlockHeight_explicit_or_latest (s : Subscription)
    (r : Except String Int) (i n : Int) (e : String) :
    (s.info.fromBlock ≠ "" → s.info.fromBlock ≠ FromBlockLatest →
      bigIntSetString10 s.info.fromBlock = some i →
      subscribeInitialHWM s r = .ok { s with lp := s.lp.initBlockHWM i })
    ∧ ((s.info.fromBlock = "" ∨ s.info.fromBlock = FromBlockLatest) →
        subscribeInitialHWM s (.ok n) = .ok { s with lp := s.lp.initBlockHWM n })
    ∧ ((s.info.fromBlock = "" ∨ s.info.fromBlock = FromBlockLatest) →
        subscribeInitialHWM s (.error e) =
          .error (.rpcCallReturnedError "eth_blockNumber" e))
    ∧ (s.info.fromBlock ≠ "" → s.info.fromBlock ≠ FromBlockLatest →
        bigIntSetString10 s.info.fromBlock = none →
        setInitialBlockHeight s r = .error .eventStreamsSubscribeBadBlock) := by
  refine ⟨?_, ?_, ?_, ?_⟩
  · intro h1 h2 h3
    simp [subscribeInitialHWM, setInitialBlockHeight, h1, h2, h3, LogProcessor.initBlockHWM]
  · intro h
    have hcond : ¬ (s.info.fromBlock ≠ "" ∧ s.info.fromBlock ≠ FromBlockLatest) := by
      rcases h with h | h <;> simp [h]
    simp [subscribeInitialHWM, setInitialBlockHeight, hcond, LogProcessor.initBlockHWM]
  · intro h
    have hcond : ¬ (s.info.fromBlock ≠ "" ∧ s.info.fromBlock ≠ FromBlockLatest) := by
      rcases h with h | h <;> simp [h]
    simp [subscribeInitialHWM, setInitialBlockHeight, hcond]
  · intro h1 h2 h3
    simp [setInitialBlockHeight, h1, h2, h3]

/-- Witness for C5 at concrete inputs: an explicit starting block "105"
seeds the HWM with 105 even though the RPC environment would answer 999;
the sentinel "latest" seeds it from the eth_blockNumber result; an
unparseable starting block "0x10" is rejected. -/
theorem setInitialBlockHeight_explicit_or_latest_witness :
    (subscribeInitialHWM
        { info := { id := "s1", path := "", summary := "", name := "", stream := "str1",
                    filter := { addresses := [], topics := [] }, event := none,
                    fromBlock := "105" },
          lp := { subID := "s1", blockHWM := 0,
                  stream := { spec := { timestamps := false }, blockTimestampCache := [] } },
          logName := "s1", filterID := 0, filteredOnce := false, filterStale := true,
          deleting := false, resetRequested := false } (.ok 999)).map
        (fun s1 => s1.lp.blockHWM) = .ok 105
    ∧ (subscribeInitialHWM
        { info := { id := "s1", path := "", summary := "", name := "", stream := "str1",
                    filter := { addresses := [], topics := [] }, event := none,
                    fromBlock := "latest" },
          lp := { subID := "s1", blockHWM := 0,
                  stream := { spec := { timestamps := false }, blockTimestampCache := [] } },
          logName := "s1", filterID := 0, filteredOnce := false, filterStale := true,
          deleting := false, resetRequested := false } (.ok 999)).map
        (fun s1 => s1.lp.blockHWM) = .ok 999
    ∧ setInitialBlockHeight
        { info := { id := "s1", path := "", summary := "", name := "", stream := "str1",
                    filter := { addresses := [], topics := [] }, event := none,
                    fromBlock := "0x10" },
          lp := { subID := "s1", blockHWM := 0,
                  stream := { spec := { timestamps := false }, blockTimestampCache := [] } },
          logName := "s1", filterID := 0, filteredOnce := false, filterStale := true,
          deleting := false, resetRequested := false } (.ok 999) =
        .error .eventStreamsSubscribeBadBlock := by
  refine ⟨?_, ?_, ?_⟩
  · rw [(setInitialBlockHeight_explicit_or_latest _ (.ok 999) 105 0 "").1
      (by decide) (by decide) (by decide)]
    rfl
  · rw [(setInitialBlockHeight_explicit_or_latest _ (.ok 999) 0 999 "").2.1
      (Or.inr (by decide))]
    rfl
  · exact (setInitialBlockHeight_explicit_or_latest _ (.ok 999) 0 0 "").2.2.2
      (by decide) (by decide) (by decide)

/-- Claim C6: `getEventTimestamp` returns the cached timestamp with no
RPC on a cache hit; on a miss it issues the block-header RPC, populates
the cache only on success, and on failure records a zero timestamp and
leaves the cache untouched. -/
theorem getEventTimestamp_cache_discipline (cache : TimestampCache) (l : LogEntry)
    (r : Except String Header) (ts : Nat) (hdr : Header) (e : String) :
    (cacheGet cache (toString l.blockNumber) = some ts →
      getEventTimestamp cache l r = ({ l with timestamp := ts }, cache, []))
    ∧ (cacheGet cache (toString l.blockNumber) = none →
        getEventTimestamp cache l (.ok hdr) =
          ({ l with timestamp := hdr.time },
            cacheAdd cache (toString l.blockNumber) hdr.time,
            [RpcCall.getBlockByNumber (toString l.blockNumber)]))
    ∧ (cacheGet cache (toString l.blockNumber) = none →
        getEventTimestamp cache l (.error e) =
          ({ l with timestamp := 0 }, cache,
            [RpcCall.getBlockByNumber (toString l.blockNumber)])) := by
  refine ⟨?_, ?_, ?_⟩ <;> intro h <;> simp [getEventTimestamp, h]

/-- Witness for C6 at concrete inputs: a hit on a one-entry cache returns
the cached value with no RPC call; a miss with a failing RPC yields a
zero timestamp and the unchanged (empty) cache. -/
theorem getEventTimestamp_cache_discipline_witness :
    getEventTimestamp [("5", 42)] { blockNumber := 5, timestamp := 0, payload := 9 }
        (.error "down") =
      ({ blockNumber := 5, timestamp := 42, payload := 9 }, [("5", 42)], [])
    ∧ getEventTimestamp [] { blockNumber := 5, timestamp := 7, payload := 9 }
        (.error "down") =
      ({ blockNumber := 5, timestamp := 0, payload := 9 }, [],
        [RpcCall.getBlockByNumber (toString (5 : Int))]) :=
  ⟨(getEventTimestamp_cache_discipline [("5", 42)]
        { blockNumber := 5, timestamp := 0, payload := 9 } (.error "down") 42
        { time := 0 } "down").1 (by decide),
    (getEventTimestamp_cache_discipline []
        { blockNumber := 5, timestamp := 7, payload := 9 } (.error "down") 0
        { time := 0 } "down").2.2 (by decide)⟩

/-- Claim C8: `validateHeader` yields a handler exactly when the header
version parses and satisfies the constraint built from
`supportedAPIVersions` ("1.0.x"), the request id is non-nil, and the
request type is registered; `ServeFFCAPI` invokes a handler exactly when
validation succeeded, and on a validation error it responds with an
error body and the invalid-inputs status without invoking any handler. -/
theorem validateHeader_supported_iff (p : String → Except String SemVersion)
    (nc : String → SemVersion → Bool) (hm : String → Option FfcHandler)
    (h : ReqHeader) (payload : String) (e : FFCErr) :
    ((∃ handler, validateHeader (NewFFCServer p nc hm) h = .ok handler) ↔
      ((∃ v, p h.version = .ok v ∧ nc supportedAPIVersions v = true)
        ∧ h.requestID.isSome = true ∧ (hm h.requestType).isSome = true))
    ∧ (validateHeader (NewFFCServer p nc hm) h = .error e →
        ServeFFCAPI (NewFFCServer p nc hm) h payload =
          ({ body := .errorResponse e.message .invalidInputs, status := 400 }, false))
    ∧ ((ServeFFCAPI (NewFFCServer p nc hm) h payload).2 = true ↔
        ∃ handler, validateHeader (NewFFCServer p nc hm) h = .ok handler) := by
  refine ⟨?_, ?_, ?_⟩
  · cases hp : p h.version with
    | error ev => simp [validateHeader, NewFFCServer, hp]
    | ok v =>
        cases hnc : nc supportedAPIVersions v with
        | false => simp [validateHeader, NewFFCServer, hp, hnc]
        | true =>
            cases hid : h.requestID with
            | none => simp [validateHeader, NewFFCServer, hp, hnc, hid]
            | some rid =>
                cases hhm : hm h.requestType with
                | none => simp [validateHeader, NewFFCServer, hp, hnc, hid, hhm]
                | some handler => simp [validateHeader, NewFFCServer, hp, hnc, hid, hhm]
  · intro hv
    simp [ServeFFCAPI, hv, mapReasonStatus]
  · cases hv : validateHeader (NewFFCServer p nc hm) h with
    | error e2 => simp [ServeFFCAPI, hv]
    | ok handler =>
        rcases hh : handler payload with ⟨rb, reason, herr⟩
        cases herr <;> simp [ServeFFCAPI, hv, hh]

/-- Witness for C8 at a concrete input: with a version parser that
rejects everything, `ServeFFCAPI` responds 400 with an error body and no
handler is invoked. -/
theorem validateHeader_supported_iff_witness :
    ServeFFCAPI
        (NewFFCServer (fun _ => .error "parse fail") (fun _ _ => true) (fun _ => none))
        { version := "zzz", requestID := some "r1", requestType := "exec_query" }
        "payload" =
      ({ body := .errorResponse (FFCErr.message (.badVersion "zzz" "parse fail"))
            .invalidInputs,
         status := 400 }, false) :=
  (validateHeader_supported_iff (fun _ => .error "parse fail") (fun _ _ => true)
      (fun _ => none)
      { version := "zzz", requestID := some "r1", requestType := "exec_query" }
      "payload" (.badVersion "zzz" "parse fail")).2.1 (by rfl)

/-- Claim C10: every subscription successfully returned by
`newSubscription` or `restoreSubscription` starts with
`filterStale = true` and `filteredOnce = false`. -/
theorem subscription_initial_flags (sr : Except Err EventStream)
    (er : Except Err (Option ABIEvent)) (addr : Option Address)
    (i j : SubscriptionInfo) (s1 s2 : Subscription) :
    (newSubscription sr er addr i = .ok s1 →
      s1.filterStale = true ∧ s1.filteredOnce = false)
    ∧ (restoreSubscription sr er j = .ok s2 →
        s2.filterStale = true ∧ s2.filteredOnce = false) := by
  constructor
  · intro h
    unfold newSubscription at h
    repeat' split at h
    all_goals simp_all
    all_goals (subst h; exact ⟨rfl, rfl⟩)
  · intro h
    unfold restoreSubscription at h
    repeat' split at h
    all_goals simp_all
    all_goals (subst h; exact ⟨rfl, rfl⟩)

/-- Witness for C10 at concrete inputs: a freshly created and a restored
subscription both start stale and not-yet-filtered. -/
theorem subscription_initial_flags_witness :
    (sampleNewSub.filterStale = true ∧ sampleNewSub.filteredOnce = false)
    ∧ (sampleRestoredSub.filterStale = true ∧ sampleRestoredSub.filteredOnce = false) :=
  ⟨(subscription_initial_flags (.ok sampleStream) (.ok (some sampleEvent)) none
        sampleInfo sampleInfo sampleNewSub sampleRestoredSub).1 (by rfl),
    (subscription_initial_flags (.ok sampleStream) (.ok (some sampleEvent)) none
        sampleInfo sampleInfo sampleNewSub sampleRestoredSub).2 (by rfl)⟩

/-- Claim C7: on a successful poll, `processNewEvents` hands every entry
of the batch to `processLogEntry` in node order (the attempted indices
are exactly 0,...,n-1 and the payload order is the node order) for every
processing-outcome oracle — so a failure on entry k never prevents the
attempt on entry k+1 — and it returns no error; when every entry fails,
each failure is logged and the result is still no error. -/
theorem processNewEvents_batch_never_aborts (s : Subscription) (logs : List LogEntry)
    (ur : Except String Bool) (hr : Nat → Except String Header)
    (pr : Nat → LogEntry → Except String Unit) (msg : String) :
    (processNewEvents s ⟨.ok logs, ur, hr, pr⟩).err = none
    ∧ (processNewEvents s ⟨.ok logs, ur, hr, pr⟩).attempted.map Prod.fst
        = List.range logs.length
    ∧ (processNewEvents s ⟨.ok logs, ur, hr, pr⟩).attempted.map (fun p => p.2.payload)
        = logs.map LogEntry.payload
    ∧ (processNewEvents s ⟨.ok logs, ur, hr, fun _ _ => .error msg⟩).logged
        = List.range logs.length
    ∧ (processNewEvents s ⟨.ok logs, ur, hr, fun _ _ => .error msg⟩).err = none := by
  refine ⟨?_, ?_, ?_, ?_, ?_⟩
  · simp [processNewEvents]
  · have := (processLogsLoop_attempts_all s.lp.stream.spec.timestamps hr pr logs 0
      { cache := s.lp.stream.blockTimestampCache, calls := [], attempted := [], logged := [] }).1
    simp [processNewEvents, this, List.range_eq_range']
  · have := (processLogsLoop_attempts_all s.lp.stream.spec.timestamps hr pr logs 0
      { cache := s.lp.stream.blockTimestampCache, calls := [], attempted := [], logged := [] }).2
    simp [processNewEvents, this]
  · have := processLogsLoop_logs_failures s.lp.stream.spec.timestamps hr msg logs 0
      { cache := s.lp.stream.blockTimestampCache, calls := [], attempted := [], logged := [] }
    simp [processNewEvents, this, List.range_eq_range']
  · simp [processNewEvents]
